import Mathlib

/-!
Verification of the driveline-driver-profile-api extraction core.

The definitions below are a shallow embedding, translated from the Python
sources under `src/api/src/` (`enhanced_pdf_parser.py`,
`routes/driver_profiles.py`, `models/driver_profile.py`).  Python strings are
modelled as `String` / `List Char`, Python `None` as `Option`/an explicit
constructor, floats as `ℚ`, and the few regular expressions the claims depend
on are embedded as explicit backtracking matchers specialised to those
patterns (leftmost search, greedy/lazy quantifiers, case-insensitive literal
matching, MULTILINE `$`), mirroring CPython `re` semantics on them.
-/

namespace Driveline

/-- Model of a Python scalar value as stored in the parser result dicts
(list-valued entries such as `employment_history` are carried separately in
the embedded result structure). -/
inductive PyVal where
  | vNone
  | vStr (s : String)
  | vBool (b : Bool)
  | vInt (n : Int)
  | vNum (q : ℚ)
  deriving DecidableEq, Repr

/-- Python truthiness for the values above (`bool(v)`). -/
def pyTruthy : PyVal → Bool
  | .vNone => false
  | .vStr s => s != ""
  | .vBool b => b
  | .vInt n => n != 0
  | .vNum q => q != 0

/-- Python `\s` on ASCII text. -/
def isPyWs (c : Char) : Bool :=
  c = ' ' || c = '\t' || c = '\n' || c = '\r' || c = '\x0b' || c = '\x0c'

/-- Python `str.lower()` (the source only lower-cases ASCII data). -/
def pyLower (s : String) : String := String.mk (s.toList.map Char.toLower)

/-- Python `str.upper()` (the source only upper-cases ASCII data). -/
def pyUpper (s : String) : String := String.mk (s.toList.map Char.toUpper)

/-- Python `str.strip()`. -/
def pyStrip (s : String) : String :=
  String.mk (((s.toList.dropWhile isPyWs).reverse.dropWhile isPyWs).reverse)

/-- `FieldType` enum from `enhanced_field_mapping.py`. -/
inductive FieldType where
  | TEXT | EMAIL | PHONE | DATE | BOOLEAN | NUMBER | ADDRESS | SSN | ARRAY | OBJECT
  deriving DecidableEq, Repr

/-- `FieldMapping` dataclass from `enhanced_field_mapping.py`.  A pattern is
kept as its literal source text; the resolver receives the regex engine as an
explicit search function (see `extract_field_value`). -/
structure FieldMapping where
  field_name : String
  field_type : FieldType
  patterns : List String
  required : Bool := false
  sectionName : String := "general"

/-! ### Embedded regex fragments

`\d` on the captured substrings is modelled as an ASCII digit; all inputs the
source feeds to these patterns are ASCII. -/

/-- Take exactly `n` digit characters, returning them and the rest. -/
def takeDigits : Nat → List Char → Option (List Char × List Char)
  | 0, cs => some ([], cs)
  | _ + 1, [] => none
  | n + 1, c :: cs =>
    if c.isDigit then (takeDigits n cs).map (fun gr => (c :: gr.1, gr.2)) else none

/-- Backtracking over the candidate lengths of a digit group: try each length
in `lens` in order, continuing with `k` on the captured digits and the rest;
the first overall success wins. -/
def tryLens {α : Type} (lens : List Nat) (cs : List Char)
    (k : List Char → List Char → Option α) : Option α :=
  match lens with
  | [] => none
  | n :: ns =>
    match takeDigits n cs with
    | some gr =>
      match k gr.1 gr.2 with
      | some v => some v
      | none => tryLens ns cs k
    | none => tryLens ns cs k

/-- Candidate lengths for `\d{lo,hi}` in greedy (descending) order. -/
def lensDesc (lo hi : Nat) : List Nat := (List.range' lo (hi + 1 - lo)).reverse

/-- Anchored match of `(\d{a1,b1})sep(\d{a2,b2})sep(\d{a3,b3})` at the head of
`cs`, with the greedy backtracking order of a regex engine (each group prefers
the longest length, earlier groups backtrack last).  Returns the three
captured groups. -/
def matchDateAt (sep : Char) (b1 b2 b3 : Nat × Nat) (cs : List Char) :
    Option (String × String × String) :=
  tryLens (lensDesc b1.1 b1.2) cs (fun g1 r1 =>
    match r1 with
    | [] => none
    | c :: r2 =>
      if c = sep then
        tryLens (lensDesc b2.1 b2.2) r2 (fun g2 r3 =>
          match r3 with
          | [] => none
          | d :: r4 =>
            if d = sep then
              tryLens (lensDesc b3.1 b3.2) r4 (fun g3 _ =>
                some (String.mk g1, String.mk g2, String.mk g3))
            else none)
      else none)

/-- `re.search` of the three-group date pattern: leftmost matching position
wins. -/
def searchDate (sep : Char) (b1 b2 b3 : Nat × Nat) : List Char → Option (String × String × String)
  | [] => none
  | c :: cs =>
    match matchDateAt sep b1 b2 b3 (c :: cs) with
    | some g => some g
    | none => searchDate sep b1 b2 b3 cs

/-- Python `str.zfill(2)` on a digit string. -/
def zfill2 (s : String) : String :=
  if s.length ≥ 2 then s else String.mk (List.replicate (2 - s.length) '0') ++ s

/-- Date branch of `_convert_field_value` (enhanced_pdf_parser.py lines
163-180): try `(\d{1,2})-(\d{1,2})-(\d{4})`, `(\d{1,2})/(\d{1,2})/(\d{4})`,
`(\d{4})-(\d{1,2})-(\d{1,2})` in order with `re.search`; on a match, if
`group(3)` has 4 characters return `g3-g1.zfill(2)-g2.zfill(2)`, otherwise
prepend `"20"` to `group(3)` as the year; if nothing matches, return the raw
string unchanged. -/
def convertDate (raw : String) : String :=
  let fmt : String × String × String → String := fun g =>
    if g.2.2.length = 4 then
      g.2.2 ++ "-" ++ zfill2 g.1 ++ "-" ++ zfill2 g.2.1
    else
      ("20" ++ g.2.2) ++ "-" ++ zfill2 g.1 ++ "-" ++ zfill2 g.2.1
  match searchDate '-' (1, 2) (1, 2) (4, 4) raw.toList with
  | some g => fmt g
  | none =>
    match searchDate '/' (1, 2) (1, 2) (4, 4) raw.toList with
    | some g => fmt g
    | none =>
      match searchDate '-' (4, 4) (1, 2) (1, 2) raw.toList with
      | some g => fmt g
      | none => raw

/-! ### Email validation (`^[a-zA-Z0-9._%+-]+@[a-zA-Z0-9.-]+\.[a-zA-Z]{2,}$`) -/

def localChar (c : Char) : Bool :=
  c.isAlpha || c.isDigit || c = '.' || c = '_' || c = '%' || c = '+' || c = '-'

def domChar (c : Char) : Bool :=
  c.isAlpha || c.isDigit || c = '.' || c = '-'

/-- `[a-zA-Z0-9.-]+\.[a-zA-Z]{2,}` consuming all of `cs`: some split at a dot
with a non-empty domain-class part before it and at least two letters after. -/
def emailTail (cs : List Char) : Bool :=
  (List.range cs.length).any (fun i =>
    cs.getD i ' ' = '.' && decide (1 ≤ i) && (cs.take i).all domChar &&
      (decide (cs.length ≥ i + 3) && (cs.drop (i + 1)).all Char.isAlpha))

/-- Anchored email pattern on a full character list. -/
def emailCore (cs : List Char) : Bool :=
  let loc := cs.takeWhile localChar
  let rest := cs.drop loc.length
  decide (loc ≠ []) &&
    (match rest with
     | '@' :: r2 => emailTail r2
     | _ => false)

/-- `re.match(email_pattern, raw)` (lines 191-192): anchored at the start; the
final `$` also matches just before one trailing newline. -/
def emailOk (raw : String) : Bool :=
  let cs := raw.toList
  emailCore cs || (cs.getLast? = some '\n' && emailCore cs.dropLast)

/-! ### Number parsing (Python `int` / `float` on the captured text)

`int(s)` / `float(s)` are modelled on plain decimal literals with an optional
sign and surrounding whitespace; exotic forms (underscore separators, `inf`,
exponents, non-ASCII digits) are outside the inputs the parser produces and
are treated as parse failures, which the source turns into the raw string. -/

def parseDigits (cs : List Char) : Option Nat :=
  if cs ≠ [] ∧ cs.all Char.isDigit then
    some (cs.foldl (fun acc c => acc * 10 + (c.toNat - '0'.toNat)) 0)
  else none

def pyInt (s : String) : Option Int :=
  match (pyStrip s).toList with
  | '-' :: cs => (parseDigits cs).map (fun n => -(n : Int))
  | '+' :: cs => (parseDigits cs).map (fun n => (n : Int))
  | cs => (parseDigits cs).map (fun n => (n : Int))

def pyFloatCore (cs : List Char) : Option ℚ :=
  match cs.splitOn '.' with
  | [whole, frac] =>
    if (whole ≠ [] ∨ frac ≠ []) ∧ whole.all Char.isDigit ∧ frac.all Char.isDigit then
      some ((((parseDigits whole).getD 0 : ℚ)) +
        ((parseDigits frac).getD 0 : ℚ) / (10 ^ frac.length : ℚ))
    else none
  | [whole] => (parseDigits whole).map (fun n => (n : ℚ))
  | _ => none

def pyFloat (s : String) : Option ℚ :=
  match (pyStrip s).toList with
  | '-' :: cs => (pyFloatCore cs).map (fun q => -q)
  | '+' :: cs => pyFloatCore cs
  | cs => pyFloatCore cs

/-! ### `_convert_field_value` (enhanced_pdf_parser.py lines 149-208) -/

/-- Blank-like guard: `if not raw_value or raw_value.lower() in ['', 'none',
'n/a', 'not found']`. -/
def blankLike (raw : String) : Bool :=
  raw = "" || pyLower raw = "none" || pyLower raw = "n/a" || pyLower raw = "not found"

/-- Digits of a string (`re.sub(r'[^\d]', '', raw)`). -/
def digitsOf (raw : String) : List Char := raw.toList.filter Char.isDigit

/-- `_convert_field_value(raw_value, field_type)`.  Returns `none` exactly
where the Python function returns `None` (blank-like input, or a failed email
validation).  The enclosing `try/except` only fires for `int`/`float`
failures, which degrade to the raw string. -/
def convert_field_value (raw : String) (ft : FieldType) : Option PyVal :=
  if blankLike raw then none
  else
    match ft with
    | .BOOLEAN =>
      some (.vBool (pyLower raw = "yes" || pyLower raw = "true" ||
        pyLower raw = "1" || pyLower raw = "y"))
    | .NUMBER =>
      if raw.toList.contains '.' then
        match pyFloat raw with
        | some q => some (.vNum q)
        | none => some (.vStr raw)
      else
        match pyInt raw with
        | some n => some (.vInt n)
        | none => some (.vStr raw)
    | .DATE => some (.vStr (convertDate raw))
    | .PHONE =>
      let ds := digitsOf raw
      if ds.length = 10 then
        some (.vStr (String.mk (ds.take 3) ++ "-" ++ String.mk ((ds.drop 3).take 3) ++
          "-" ++ String.mk (ds.drop 6)))
      else some (.vStr raw)
    | .EMAIL =>
      if emailOk raw then some (.vStr (pyLower raw)) else none
    | .SSN =>
      let ds := digitsOf raw
      if ds.length = 9 then
        some (.vStr (String.mk (ds.take 3) ++ "-" ++ String.mk ((ds.drop 3).take 2) ++
          "-" ++ String.mk (ds.drop 5)))
      else some (.vStr raw)
    | _ => some (.vStr (pyStrip raw))

/-! ### Repeated-group extraction (`_extract_employment_history`, lines 210-273)

The employment pattern is
`Company\s+([^\n\r]+).*?(?=Company\s+[^\n\r]+|Unemployment|Trucking School|$)`
compiled with `re.IGNORECASE | re.MULTILINE | re.DOTALL` and iterated with
`re.finditer`.  It is embedded as an explicit backtracking matcher: literal
text matches case-insensitively, `\s+` and `[^\n\r]+` are greedy with
backtracking, `.*?` is lazy, and under MULTILINE the `$` inside the lookahead
matches at the end of the string and just before any `'\n'`. -/

def nlcr (c : Char) : Bool := c = '\n' || c = '\r'

/-- Case-insensitive literal match at the head of `cs`; returns the rest. -/
def ciStarts : List Char → List Char → Option (List Char)
  | [], cs => some cs
  | _ :: _, [] => none
  | p :: ps, c :: cs => if c.toLower = p.toLower then ciStarts ps cs else none

def countLeading (p : Char → Bool) : List Char → Nat
  | [] => 0
  | c :: cs => if p c then countLeading p cs + 1 else 0

/-- Backtracking driver: try each candidate in order, first success wins. -/
def firstHit {α : Type} (ts : List Nat) (f : Nat → Option α) : Option α :=
  match ts with
  | [] => none
  | t :: ts => match f t with | some v => some v | none => firstHit ts f

/-- The lookahead `(?=Company\s+[^\n\r]+|Unemployment|Trucking School|$)` at a
given position (`cs` is the remaining text).  With MULTILINE, `$` holds at the
end of the text or immediately before a `'\n'`. -/
def empLookahead (cs : List Char) : Bool :=
  (match ciStarts "Company".toList cs with
   | some r =>
     (match r with
      | [] => false
      | c :: rest => isPyWs c && !(rest.dropWhile nlcr).isEmpty)
   | none => false) ||
  (ciStarts "Unemployment".toList cs).isSome ||
  (ciStarts "Trucking School".toList cs).isSome ||
  (match cs with | [] => true | c :: _ => c = '\n')

/-- Anchored match of the employment pattern at the head of `cs`, returning
the length of `group(0)`.  `\s+` and `[^\n\r]+` take the longest lengths
first; `.*?` grows from the empty string until the lookahead holds (it always
does at the end of the text, where `$` holds). -/
def empMatchAt (cs : List Char) : Option Nat :=
  match ciStarts "Company".toList cs with
  | none => none
  | some r1 =>
    firstHit (lensDesc 1 (countLeading isPyWs r1)) (fun k =>
      let r2 := r1.drop k
      firstHit (lensDesc 1 (countLeading (fun c => !nlcr c) r2)) (fun m =>
        let r3 := r2.drop m
        firstHit (List.range (r3.length + 1)) (fun t =>
          if empLookahead (r3.drop t) then some (7 + k + m + t) else none)))

/-- `re.finditer`: repeatedly take the leftmost match and continue at its end
(the fuel is an upper bound on steps; each step either advances or stops). -/
def findEmpAux : Nat → List Char → List (List Char)
  | 0, _ => []
  | _ + 1, [] => []
  | fuel + 1, c :: cs =>
    match empMatchAt (c :: cs) with
    | some len => (c :: cs).take len :: findEmpAux fuel ((c :: cs).drop len)
    | none => findEmpAux fuel cs

/-- The `match.group(0)` spans produced by the employment `finditer` loop
(enhanced_pdf_parser.py lines 215-220). -/
def extract_employment_blocks (text : String) : List String :=
  (findEmpAux (text.toList.length + 1) text.toList).map String.mk

/-- Anchored match of `LABEL\s+([^\n\r]+)` (case-insensitive) at the head of
`cs`, returning the capture. -/
def labelMatchAt (label : List Char) (cs : List Char) : Option (List Char) :=
  match ciStarts label cs with
  | none => none
  | some r1 =>
    firstHit (lensDesc 1 (countLeading isPyWs r1)) (fun k =>
      let g := (r1.drop k).takeWhile (fun c => !nlcr c)
      if g.isEmpty then none else some g)

def searchLabel (label : List Char) : List Char → Option (List Char)
  | [] => none
  | c :: cs =>
    match labelMatchAt label (c :: cs) with
    | some g => some g
    | none => searchLabel label cs

/-- `_extract_employment_field(text, pattern)` (lines 275-281) for the
patterns of shape `LABEL\s+([^\n\r]+)` used on employment blocks: first match
of the capture, stripped, with `''`/`'none'`/`'n/a'` mapped to `None`. -/
def extract_employment_field (text : String) (label : String) : Option String :=
  match searchLabel label.toList text.toList with
  | none => none
  | some g =>
    let v := pyStrip (String.mk g)
    if v = "" || pyLower v = "none" || pyLower v = "n/a" then none else some v

/-! ### Employment-history sort (lines 266-272) -/

/-- One element of the `employment_history` list.  The source stores Python
dicts; only the keys read by the sort and the minimum-viability check are
modelled (every record carries a `start_date` key, possibly `None`). -/
structure EmploymentEntry where
  company_name : Option String := none
  start_date : Option String := none
  end_date : Option String := none
  reason_for_leaving : Option String := none
  employment_type : Option String := none
  deriving DecidableEq, Repr

/-- The sort key `lambda x: x.get('start_date', '')`: the stored value when
the key is present (always, in records the source builds), `''` otherwise. -/
def empKey (r : EmploymentEntry) : String := r.start_date.getD ""

/- Lines 266-272 run `employment_history.sort(key=lambda x:
x.get('start_date', ''), reverse=True)` inside `try/except TypeError: pass`.
CPython sorts in place: with `reverse=True` it first reverses the list,
runs a stable forward sort, and reverses again on both the success and the
failure path.  For fewer than 64 elements (minrun = n, always the case for
employment histories) the forward sort is a single `count_run` — which
detects an initial ascending run, or a strictly descending run that is then
reversed in place — followed by a binary insertion sort of the remaining
elements.  A key comparison involving `None` raises `TypeError`; the
`except` branch then keeps the list in whatever partially reordered state
the aborted in-place sort had reached.  The functions below embed exactly
this algorithm; comparisons return `Except Unit Bool`, `error` standing for
the raised `TypeError`. -/

/-- `key(a) < key(b)` on the sort keys `x.get('start_date', '')`: string
comparison is lexicographic, and any comparison involving `None` raises
`TypeError`. -/
def cmpLt (a b : EmploymentEntry) : Except Unit Bool :=
  match a.start_date, b.start_date with
  | some x, some y => .ok (decide (x.toList < y.toList))
  | _, _ => .error ()

/-- `count_run` extension scan: starting after the first pair, the run
continues while the comparison `next < prev` keeps returning `desc`
(descending runs continue on `true`, ascending runs on `false`). -/
def countRunExtend (desc : Bool) (prev : EmploymentEntry) :
    List EmploymentEntry → Except Unit Nat
  | [] => .ok 0
  | x :: xs =>
    Except.bind (cmpLt x prev) (fun c =>
      if c = desc then Except.map (· + 1) (countRunExtend desc x xs) else .ok 0)

/-- CPython `count_run`: length of the maximal initial run and whether it is
strictly descending (decided by the first comparison). -/
def countRun : List EmploymentEntry → Except Unit (Nat × Bool)
  | [] => .ok (0, false)
  | [_] => .ok (1, false)
  | a :: b :: rest =>
    Except.bind (cmpLt b a) (fun c =>
      Except.map (fun n => (n + 2, c)) (countRunExtend c b rest))

/-- The binary search of CPython `binarysort`: find the insertion position of
`pivot` in the sorted prefix `acc`, probing `m = l + (r - l) / 2` and
narrowing to `[l, m)` when `pivot < acc[m]`, else to `[m + 1, r)`.  The fuel
starts at `r - l` and strictly bounds the iteration count, so it never runs
out. -/
def binSearchAux (pivot : EmploymentEntry) (acc : List EmploymentEntry) :
    Nat → Nat → Nat → Except Unit Nat
  | 0, l, _ => .ok l
  | fuel + 1, l, r =>
    if l < r then
      let m := l + (r - l) / 2
      Except.bind (cmpLt pivot (acc.getD m pivot)) (fun c =>
        if c then binSearchAux pivot acc fuel l m
        else binSearchAux pivot acc fuel (m + 1) r)
    else .ok l

/-- The insertion loop of `binarysort`: each pivot is binary-searched into
the sorted prefix; a raising comparison aborts with the array as it stands —
the sorted prefix so far, the untouched pivot, and the untouched rest. -/
def binarysortLoop (acc : List EmploymentEntry) :
    List EmploymentEntry → List EmploymentEntry
  | [] => acc
  | pivot :: rest =>
    match binSearchAux pivot acc acc.length 0 acc.length with
    | .error _ => acc ++ pivot :: rest
    | .ok pos => binarysortLoop (acc.take pos ++ pivot :: acc.drop pos) rest

/-- The stable forward sort on a list of fewer than 64 elements: `count_run`
(reversing a strictly descending initial run in place), then binary insertion
of the remaining elements.  A raise inside `count_run` leaves the list
unchanged; a raise during insertion leaves it partially reordered. -/
def pyListSortAsc (l : List EmploymentEntry) : List EmploymentEntry :=
  match countRun l with
  | .error _ => l
  | .ok nd =>
    let l2 := if nd.2 then (l.take nd.1).reverse ++ l.drop nd.1 else l
    binarysortLoop (l2.take nd.1) (l2.drop nd.1)

/-- Lines 266-272: the sort attempt with `reverse=True` (reverse, stable
forward sort, reverse again — also on the failure path) and
`except TypeError: pass`. -/
def sort_employment_history (l : List EmploymentEntry) : List EmploymentEntry :=
  (pyListSortAsc l.reverse).reverse

/-! ### Confidence scorer (`_calculate_parsing_confidence`, lines 323-349) -/

/-- The slice of the parser result dict the confidence scorer reads: the flat
catalog fields and the `employment_history` list. -/
structure ParseResult where
  fields : List (String × PyVal)
  employment_history : List EmploymentEntry

/-- `field.field_name in result and result[field.field_name] is not None`,
counted over the catalog. -/
def countExtracted (mappings : List String) (r : ParseResult) : Nat :=
  mappings.countP (fun name =>
    match r.fields.lookup name with
    | some v => v != PyVal.vNone
    | none => false)

/-- The required-field loop: `if result.get(field):` over
`['full_name', 'email', 'license_number']`. -/
def requiredPopulated (r : ParseResult) : Nat :=
  (["full_name", "email", "license_number"]).countP (fun f =>
    match r.fields.lookup f with
    | some v => pyTruthy v
    | none => false)

/-- `round(x, 2)` on the exact rational value. -/
def round2 (q : ℚ) : ℚ := (round (q * 100) : ℤ) / 100

def calculate_parsing_confidence (mappings : List String) (r : ParseResult) : ℚ :=
  let total := mappings.length
  let base := countExtracted mappings r
  let withEmp := base + (if r.employment_history.length > 0 then 5 else 0)
  let adjusted := withEmp + 2 * requiredPopulated r
  let confidence : ℚ := if total = 0 then 0 else min 100 ((adjusted : ℚ) / (total : ℚ) * 100)
  round2 confidence

/-- The adjusted count exactly as the claim words it: base count of non-absent
catalog fields, plus 5 if employment history is non-empty, plus 2 per
populated required field. -/
def specAdjustedCount (mappings : List String) (r : ParseResult) : Nat :=
  countExtracted mappings r + (if r.employment_history ≠ [] then 5 else 0) +
    2 * requiredPopulated r

/-- The confidence score exactly as the claim words it. -/
def specConfidence (mappings : List String) (r : ParseResult) : ℚ :=
  if mappings.length = 0 then 0
  else round2 (min 100 (100 * (specAdjustedCount mappings r : ℚ) / (mappings.length : ℚ)))

/-! ### Risk scorer (`assess_driver_risk`, routes/driver_profiles.py 21-82) -/

/-- The five free-text safety fields the scorer reads, already rendered with
`str(profile_data.get(key, ''))` (a missing key renders as `''`). -/
structure RiskInput where
  criminal_record_status : String := ""
  accident_history : String := ""
  license_suspensions : String := ""
  drug_test_results : String := ""
  traffic_violations : String := ""

structure RiskResult where
  level : String
  score : Nat
  color : String
  factors : List String
  recommendation : String
  deriving DecidableEq, Repr

/-- Python substring test `pat in s`. -/
def subList (pat : List Char) : List Char → Bool
  | [] => pat.isEmpty
  | c :: cs => pat.isPrefixOf (c :: cs) || subList pat cs

def hasSub (pat s : String) : Bool := subList pat.toList s.toList

/-- Lines 59-68: `if risk_score >= 5: High/red elif risk_score >= 2:
Medium/yellow else: Low/green`. -/
def riskLevelColor (risk_score : Nat) : String × String :=
  if risk_score ≥ 5 then ("High", "red")
  else if risk_score ≥ 2 then ("Medium", "yellow") else ("Low", "green")

def assess_driver_risk (p : RiskInput) : RiskResult :=
  let criminal_status := pyLower p.criminal_record_status
  let crimMajor := hasSub "felony" criminal_status || hasSub "conviction" criminal_status
  let crimMinor := hasSub "misdemeanor" criminal_status
  let accident_history := pyLower p.accident_history
  let accHit := hasSub "accident" accident_history || hasSub "collision" accident_history
  let license_issues := pyLower p.license_suspensions
  let licHit := hasSub "suspended" license_issues || hasSub "revoked" license_issues
  let drug_test := pyLower p.drug_test_results
  let drugHit := hasSub "failed" drug_test || hasSub "positive" drug_test
  let violations := pyLower p.traffic_violations
  let vioHit := hasSub "violation" violations || hasSub "ticket" violations
  let risk_score :=
    (if crimMajor then 3 else if crimMinor then 1 else 0) +
    (if accHit then 2 else 0) + (if licHit then 3 else 0) +
    (if drugHit then 3 else 0) + (if vioHit then 1 else 0)
  let risk_factors :=
    (if crimMajor then ["Criminal record found"]
     else if crimMinor then ["Minor criminal record"] else []) ++
    (if accHit then ["Accident history reported"] else []) ++
    (if licHit then ["License suspension/revocation"] else []) ++
    (if drugHit then ["Drug test failure"] else []) ++
    (if vioHit then ["Traffic violations"] else [])
  let lc : String × String := riskLevelColor risk_score
  let recommendation :=
    (([("Low", "Candidate appears to have a clean record. Proceed with standard hiring process."),
        ("Medium", "Some concerns identified. Consider additional screening or interview questions."),
        ("High", "Significant risk factors present. Thorough review and additional verification recommended.")]
       : List (String × String)).lookup lc.1).getD "Review candidate information carefully."
  { level := lc.1, score := risk_score, color := lc.2, factors := risk_factors,
    recommendation := recommendation }

/-! ### Field resolver (`_extract_field_value`, lines 135-147)

The resolver is parameterised by the regex engine: `search pattern text`
stands for `re.search(pattern, text, re.IGNORECASE | re.MULTILINE |
re.DOTALL)` returning `match.group(1)`; a failed search (no match, or a
pattern error swallowed by the `except` branch) is `none` and moves on to the
next pattern. -/

def resolvePatterns (search : String → String → Option String) (text : String)
    (ft : FieldType) : List String → Option PyVal
  | [] => none
  | p :: ps =>
    match search p text with
    | some raw => convert_field_value (pyStrip raw) ft
    | none => resolvePatterns search text ft ps

def extract_field_value (search : String → String → Option String) (text : String)
    (field : FieldMapping) : Option PyVal :=
  resolvePatterns search text field.field_type field.patterns

/-! ### Profile data model (`models/driver_profile.py`)

`asdict` of the nested dataclasses yields a JSON-like tree, modelled by
`JVal`; dict keys appear in dataclass declaration order. -/

inductive JVal where
  | jnull
  | jstr (s : String)
  | jint (n : Int)
  | jnum (q : ℚ)
  | jbool (b : Bool)
  | jlist (xs : List JVal)
  | jobj (kvs : List (String × JVal))
  deriving Repr

/-- The filter in `to_json_safe`: a dict value is dropped when `v is None`,
`v == []`, or `v == ""`. -/
def dropVal : JVal → Bool
  | .jnull => true
  | .jstr s => s == ""
  | .jlist xs => xs.isEmpty
  | _ => false

/- `clean_dict` from `DriverProfile.to_json_safe` (lines 165-171): dict
entries whose original value is `None`/`[]`/`""` are removed and the kept
values cleaned recursively; list elements are kept unless `None`, each
cleaned recursively; scalars pass through. -/
mutual
def cleanJ : JVal → JVal
  | .jobj kvs => .jobj (cleanObj kvs)
  | .jlist xs => .jlist (cleanList xs)
  | v => v

def cleanObj : List (String × JVal) → List (String × JVal)
  | [] => []
  | (k, v) :: rest => if dropVal v then cleanObj rest else (k, cleanJ v) :: cleanObj rest

def cleanList : List JVal → List JVal
  | [] => []
  | v :: rest =>
    match v with
    | .jnull => cleanList rest
    | v => cleanJ v :: cleanList rest
end

/- `true` when some droppable value (`None`/`""`/`[]`) still occurs in the
tree, as a dict-entry value or a list element. -/
mutual
def has_dropped_value : JVal → Bool
  | .jobj kvs => hasDroppedObj kvs
  | .jlist xs => hasDroppedList xs
  | _ => false

def hasDroppedObj : List (String × JVal) → Bool
  | [] => false
  | (_, v) :: rest => dropVal v || has_dropped_value v || hasDroppedObj rest

def hasDroppedList : List JVal → Bool
  | [] => false
  | v :: rest => dropVal v || has_dropped_value v || hasDroppedList rest
end

/- `true` when no dict entry of the tree holds a droppable value
(`None`/`""`/`[]`), recursively. -/
mutual
def dict_entries_clean : JVal → Bool
  | .jobj kvs => dictCleanObj kvs
  | .jlist xs => dictCleanList xs
  | _ => true

def dictCleanObj : List (String × JVal) → Bool
  | [] => true
  | (_, v) :: rest => !dropVal v && dict_entries_clean v && dictCleanObj rest

def dictCleanList : List JVal → Bool
  | [] => true
  | v :: rest => dict_entries_clean v && dictCleanList rest
end

structure PersonalInfo where
  full_name : Option String := none
  email : Option String := none
  phone : Option String := none
  address : Option String := none
  date_of_birth : Option String := none
  social_security : Option String := none
  emergency_contact_name : Option String := none
  emergency_contact_phone : Option String := none

structure LicenseInfo where
  license_number : Option String := none
  license_class : Option String := none
  license_state : Option String := none
  license_expiration : Option String := none
  endorsements : Option String := none
  restrictions : Option String := none

structure EmploymentRecord where
  employer_name : Option String := none
  position : Option String := none
  start_date : Option String := none
  end_date : Option String := none
  reason_for_leaving : Option String := none
  supervisor_name : Option String := none
  supervisor_contact : Option String := none

structure EmploymentHistory where
  years_experience : Option String := none
  current_employment_status : Option String := none
  previous_positions : List EmploymentRecord := []

structure SafetyRecord where
  criminal_record_status : Option String := none
  accident_history : Option String := none
  traffic_violations : Option String := none
  drug_test_results : Option String := none
  license_suspensions : Option String := none
  dui_convictions : Option String := none

structure Education where
  trucking_school : Option String := none
  graduation_status : Option String := none
  training_hours : Option String := none
  gpa : Option String := none
  certifications : Option String := none

structure ComplianceInfo where
  fcra_authorization : Option String := none
  background_check_consent : Option String := none
  psp_disclosure : Option String := none
  clearinghouse_consent : Option String := none
  drug_testing_consent : Option String := none

structure RiskAssessment where
  level : String := "Unknown"
  score : Int := 0
  color : String := "gray"
  factors : List String := []
  recommendation : String := ""

structure ApplicationMetadata where
  filename : Option String := none
  confidence_score : ℚ := 0
  total_fields_extracted : Int := 0
  processing_time : Option String := none
  api_version : String := "2.0"
  processed_at : Option String := none

structure DriverProfile where
  driver_id : String
  profile_id : String
  personal : PersonalInfo := {}
  license : LicenseInfo := {}
  employment : EmploymentHistory := {}
  safety : SafetyRecord := {}
  education : Education := {}
  compliance : ComplianceInfo := {}
  risk_assessment : RiskAssessment := {}
  metadata : ApplicationMetadata := {}
  status : String := "pending"
  created_at : Option String := none
  updated_at : Option String := none

/-- `None ↦ null`, `str ↦ string` for optional dataclass fields. -/
def optJ : Option String → JVal
  | none => .jnull
  | some s => .jstr s

def PersonalInfo.toDict (p : PersonalInfo) : JVal :=
  .jobj [("full_name", optJ p.full_name), ("email", optJ p.email),
    ("phone", optJ p.phone), ("address", optJ p.address),
    ("date_of_birth", optJ p.date_of_birth), ("social_security", optJ p.social_security),
    ("emergency_contact_name", optJ p.emergency_contact_name),
    ("emergency_contact_phone", optJ p.emergency_contact_phone)]

def LicenseInfo.toDict (l : LicenseInfo) : JVal :=
  .jobj [("license_number", optJ l.license_number), ("license_class", optJ l.license_class),
    ("license_state", optJ l.license_state), ("license_expiration", optJ l.license_expiration),
    ("endorsements", optJ l.endorsements), ("restrictions", optJ l.restrictions)]

def EmploymentRecord.toDict (r : EmploymentRecord) : JVal :=
  .jobj [("employer_name", optJ r.employer_name), ("position", optJ r.position),
    ("start_date", optJ r.start_date), ("end_date", optJ r.end_date),
    ("reason_for_leaving", optJ r.reason_for_leaving),
    ("supervisor_name", optJ r.supervisor_name),
    ("supervisor_contact", optJ r.supervisor_contact)]

def EmploymentHistory.toDict (h : EmploymentHistory) : JVal :=
  .jobj [("years_experience", optJ h.years_experience),
    ("current_employment_status", optJ h.current_employment_status),
    ("previous_positions", .jlist (h.previous_positions.map EmploymentRecord.toDict))]

def SafetyRecord.toDict (s : SafetyRecord) : JVal :=
  .jobj [("criminal_record_status", optJ s.criminal_record_status),
    ("accident_history", optJ s.accident_history),
    ("traffic_violations", optJ s.traffic_violations),
    ("drug_test_results", optJ s.drug_test_results),
    ("license_suspensions", optJ s.license_suspensions),
    ("dui_convictions", optJ s.dui_convictions)]

def Education.toDict (e : Education) : JVal :=
  .jobj [("trucking_school", optJ e.trucking_school),
    ("graduation_status", optJ e.graduation_status),
    ("training_hours", optJ e.training_hours), ("gpa", optJ e.gpa),
    ("certifications", optJ e.certifications)]

def ComplianceInfo.toDict (c : ComplianceInfo) : JVal :=
  .jobj [("fcra_authorization", optJ c.fcra_authorization),
    ("background_check_consent", optJ c.background_check_consent),
    ("psp_disclosure", optJ c.psp_disclosure),
    ("clearinghouse_consent", optJ c.clearinghouse_consent),
    ("drug_testing_consent", optJ c.drug_testing_consent)]

def RiskAssessment.toDict (r : RiskAssessment) : JVal :=
  .jobj [("level", .jstr r.level), ("score", .jint r.score), ("color", .jstr r.color),
    ("factors", .jlist (r.factors.map JVal.jstr)),
    ("recommendation", .jstr r.recommendation)]

def ApplicationMetadata.toDict (m : ApplicationMetadata) : JVal :=
  .jobj [("filename", optJ m.filename), ("confidence_score", .jnum m.confidence_score),
    ("total_fields_extracted", .jint m.total_fields_extracted),
    ("processing_time", optJ m.processing_time), ("api_version", .jstr m.api_version),
    ("processed_at", optJ m.processed_at)]

/-- `asdict(self)` (dataclass field order). -/
def DriverProfile.toDict (p : DriverProfile) : JVal :=
  .jobj [("driver_id", .jstr p.driver_id), ("profile_id", .jstr p.profile_id),
    ("personal", p.personal.toDict), ("license", p.license.toDict),
    ("employment", p.employment.toDict), ("safety", p.safety.toDict),
    ("education", p.education.toDict), ("compliance", p.compliance.toDict),
    ("risk_assessment", p.risk_assessment.toDict), ("metadata", p.metadata.toDict),
    ("status", .jstr p.status), ("created_at", optJ p.created_at),
    ("updated_at", optJ p.updated_at)]

/-- `DriverProfile.to_json_safe` (lines 160-173). -/
def DriverProfile.to_json_safe (p : DriverProfile) : JVal := cleanJ p.toDict

/-- `f"DRV-{driver_id[:8].upper()}"`. -/
def deriveProfileId (did : String) : String :=
  "DRV-" ++ pyUpper (String.mk (did.toList.take 8))

/-- The identifier logic of `__post_init__` (lines 125-130): a missing
`driver_id` is minted as `str(uuid.uuid4())` (the fresh value is a parameter
of the embedding), and a missing `profile_id` is derived from the resulting
`driver_id`. -/
def postInitIds (driver_id0 profile_id0 : Option String) (freshUuid : String) :
    String × String :=
  let did := driver_id0.getD freshUuid
  (did, profile_id0.getD (deriveProfileId did))

/-- `DriverProfile()` built without explicit identifiers: `__post_init__`
mints the ids, fills every section with its empty default, and stamps the
current time (`now`, a parameter of the embedding) on both timestamps; the
dataclass default leaves `status = "pending"`. -/
def newDriverProfile (freshUuid now : String) : DriverProfile :=
  let ids := postInitIds none none freshUuid
  { driver_id := ids.1, profile_id := ids.2,
    personal := {}, license := {}, employment := {}, safety := {},
    education := {}, compliance := {}, risk_assessment := {}, metadata := {},
    status := "pending", created_at := some now, updated_at := some now }

/-! ## Claim theorems -/

/-- C1 (code bug witnessed at the failing input): the date coercer normalizes
`D-D-YYYY` and `D/D/YYYY` as the claim states, but on the `YYYY-D-D` layout it
inspects `group(3)` — the day, not the year — so the two-digit day takes the
`"20" + group(3)` branch and `"3-15-2024"` coerces to `"2024-03-15"` while
`"2024-3-15"` coerces to `"2015-2024-03"` instead of the claimed
`"2024-03-15"`; a string matching no layout is returned verbatim. -/
theorem c1_date_coercion_eval :
    convert_field_value "3-15-2024" .DATE = some (.vStr "2024-03-15") ∧
    convert_field_value "2024-3-15" .DATE = some (.vStr "2015-2024-03") ∧
    convert_field_value "not a date" .DATE = some (.vStr "not a date") :=
  ⟨rfl, rfl, rfl⟩

/-- The two-Company / Trucking-School text of the claim's segmentation
example. -/
def c2text : String :=
  "Company Acme\nStart Date 1-1-2020\nCompany Bold\nTrucking School X"

/-- C2 (code bug witnessed at the failing input): because the block pattern is
compiled with `re.MULTILINE`, the `$` alternative of its lookahead matches at
the end of the opening `Company` line, so each extracted block is only that
line — it stops before the next `Company` marker / terminator /
end-of-document span the claim describes.  Consequently the `Start Date` line
inside the first claimed span is not part of the extracted block (its
`start_date` resolves to `None`), although resolving the same field on the
claimed span would find `"1-1-2020"`. -/
theorem c2_blocks_end_at_line_end :
    extract_employment_blocks c2text = ["Company Acme", "Company Bold"] ∧
    extract_employment_field "Company Acme" "Start Date" = none ∧
    extract_employment_field "Company Acme\nStart Date 1-1-2020\n" "Start Date" =
      some "1-1-2020" :=
  ⟨rfl, rfl, rfl⟩

/-- C10: a profile constructed without explicit identifiers takes the freshly
minted UUID string as `driver_id`, derives `profile_id` as `"DRV-"` followed
by the first 8 characters of `driver_id` upper-cased, and starts with status
`"pending"`. -/
theorem c10_post_init_ids (freshUuid now : String) :
    (newDriverProfile freshUuid now).driver_id = freshUuid ∧
    (newDriverProfile freshUuid now).profile_id =
      "DRV-" ++ pyUpper (String.mk (freshUuid.toList.take 8)) ∧
    (newDriverProfile freshUuid now).status = "pending" :=
  ⟨rfl, rfl, rfl⟩

/-- C6: the field resolver tries the patterns in declaration order and the
first one the engine matches decides the value: whenever `patterns[0]`
matches (capturing `r0`), the result is the coercion of `r0` — even when
`patterns[1]` would match as well. -/
theorem c6_first_pattern_wins (search : String → String → Option String)
    (text : String) (f : FieldMapping) (p0 p1 : String) (rest : List String)
    (r0 : String) (hp : f.patterns = p0 :: p1 :: rest)
    (h0 : search p0 text = some r0) (_h1 : (search p1 text).isSome) :
    extract_field_value search text f = convert_field_value (pyStrip r0) f.field_type := by
  unfold extract_field_value
  rw [hp]
  unfold resolvePatterns
  rw [h0]

/-- A concrete two-pattern engine where both patterns match. -/
def c6search : String → String → Option String := fun p _ =>
  if p = "P0" then some " alpha " else if p = "P1" then some "beta" else none

theorem c6_first_pattern_wins_witness :
    extract_field_value c6search "text" ⟨"f", .TEXT, ["P0", "P1"], false, "general"⟩ =
      some (.vStr "alpha") :=
  c6_first_pattern_wins c6search "text" ⟨"f", .TEXT, ["P0", "P1"], false, "general"⟩
    "P0" "P1" [] " alpha " rfl rfl (by decide)

/-- C7: email coercion validates the captured string against the strict
anchored pattern; on success it returns the string lower-cased and on failure
it returns absent (`None`) — unlike the Date/Phone/IdentityNumber coercions,
which degrade to the raw string, as the trailing conjuncts show on concrete
unparseable inputs. -/
theorem c7_email_coercion :
    (∀ raw : String, blankLike raw = false →
      (emailOk raw = true → convert_field_value raw .EMAIL = some (.vStr (pyLower raw))) ∧
      (emailOk raw = false → convert_field_value raw .EMAIL = none)) ∧
    convert_field_value "John.Doe@Example.COM" .EMAIL =
      some (.vStr "john.doe@example.com") ∧
    convert_field_value "not-an-email" .EMAIL = none ∧
    convert_field_value "sometime soon" .DATE = some (.vStr "sometime soon") ∧
    convert_field_value "555-12-34" .PHONE = some (.vStr "555-12-34") ∧
    convert_field_value "12-34-56" .SSN = some (.vStr "12-34-56") := by
  refine ⟨fun raw hb => ⟨fun he => ?_, fun he => ?_⟩, rfl, rfl, rfl, rfl, rfl⟩ <;>
    simp [convert_field_value, hb, he]

theorem c7_email_coercion_witness :
    convert_field_value "a@b.co" .EMAIL = some (.vStr "a@b.co") :=
  (c7_email_coercion.1 "a@b.co" (by decide)).1 (by decide)

theorem riskLevelColor_high {s : Nat} (h : 5 ≤ s) : riskLevelColor s = ("High", "red") := by
  unfold riskLevelColor
  rw [if_pos h]

theorem riskLevelColor_medium {s : Nat} (h2 : 2 ≤ s) (h5 : s < 5) :
    riskLevelColor s = ("Medium", "yellow") := by
  unfold riskLevelColor
  rw [if_neg (by omega), if_pos h2]

theorem riskLevelColor_low {s : Nat} (h : s < 2) : riskLevelColor s = ("Low", "green") := by
  unfold riskLevelColor
  rw [if_neg (by omega), if_neg (by omega)]

/-- C5: the risk score is the sum of the keyword contributions (+3 for
felony/conviction, else +1 for misdemeanor; +2 for accident/collision; +3 for
suspended/revoked; +3 for failed/positive; +1 for violation/ticket), all
case-insensitive substring checks on the free-text fields; the level is High
for score ≥ 5, Medium for 2 ≤ score < 5, else Low; in particular a
criminal-record text containing "felony" together with a license text
containing "suspended" forces score ≥ 6 and level "High". -/
theorem c5_risk_scoring (p : RiskInput) :
    (assess_driver_risk p).score =
      (if hasSub "felony" (pyLower p.criminal_record_status) ||
          hasSub "conviction" (pyLower p.criminal_record_status) then 3
       else if hasSub "misdemeanor" (pyLower p.criminal_record_status) then 1 else 0) +
      (if hasSub "accident" (pyLower p.accident_history) ||
          hasSub "collision" (pyLower p.accident_history) then 2 else 0) +
      (if hasSub "suspended" (pyLower p.license_suspensions) ||
          hasSub "revoked" (pyLower p.license_suspensions) then 3 else 0) +
      (if hasSub "failed" (pyLower p.drug_test_results) ||
          hasSub "positive" (pyLower p.drug_test_results) then 3 else 0) +
      (if hasSub "violation" (pyLower p.traffic_violations) ||
          hasSub "ticket" (pyLower p.traffic_violations) then 1 else 0) ∧
    (5 ≤ (assess_driver_risk p).score → (assess_driver_risk p).level = "High") ∧
    (2 ≤ (assess_driver_risk p).score ∧ (assess_driver_risk p).score < 5 →
      (assess_driver_risk p).level = "Medium") ∧
    ((assess_driver_risk p).score < 2 → (assess_driver_risk p).level = "Low") ∧
    (hasSub "felony" (pyLower p.criminal_record_status) = true →
     hasSub "suspended" (pyLower p.license_suspensions) = true →
     6 ≤ (assess_driver_risk p).score ∧ (assess_driver_risk p).level = "High") := by
  have hscore : (assess_driver_risk p).score =
      (if hasSub "felony" (pyLower p.criminal_record_status) ||
          hasSub "conviction" (pyLower p.criminal_record_status) then 3
       else if hasSub "misdemeanor" (pyLower p.criminal_record_status) then 1 else 0) +
      (if hasSub "accident" (pyLower p.accident_history) ||
          hasSub "collision" (pyLower p.accident_history) then 2 else 0) +
      (if hasSub "suspended" (pyLower p.license_suspensions) ||
          hasSub "revoked" (pyLower p.license_suspensions) then 3 else 0) +
      (if hasSub "failed" (pyLower p.drug_test_results) ||
          hasSub "positive" (pyLower p.drug_test_results) then 3 else 0) +
      (if hasSub "violation" (pyLower p.traffic_violations) ||
          hasSub "ticket" (pyLower p.traffic_violations) then 1 else 0) := rfl
  have hlevel : (assess_driver_risk p).level =
      (riskLevelColor ((assess_driver_risk p).score)).1 := rfl
  refine ⟨hscore, ?_, ?_, ?_, ?_⟩
  · intro h
    rw [hlevel, riskLevelColor_high h]
  · intro h
    rw [hlevel, riskLevelColor_medium h.1 h.2]
  · intro h
    rw [hlevel, riskLevelColor_low h]
  · intro h1 h2
    have h6 : 6 ≤ (assess_driver_risk p).score := by
      rw [hscore]
      split_ifs <;> simp_all
    exact ⟨h6, by rw [hlevel, riskLevelColor_high (by omega)]⟩

theorem c5_risk_scoring_witness :
    6 ≤ (assess_driver_risk
          { criminal_record_status := "Felony conviction 2019",
            license_suspensions := "License suspended in 2020" }).score ∧
    (assess_driver_risk
      { criminal_record_status := "Felony conviction 2019",
        license_suspensions := "License suspended in 2020" }).level = "High" :=
  (c5_risk_scoring
    { criminal_record_status := "Felony conviction 2019",
      license_suspensions := "License suspended in 2020" }).2.2.2.2 (by decide) (by decide)

/-- C9: on every input the scorer produces one of the three level/color pairs
Low/green, Medium/yellow, High/red, with an integer score between 0 and 12;
the `RiskAssessment` default level "Unknown" is never produced (scores are
`Nat`, so 0 ≤ score holds by type). -/
theorem c9_risk_invariants (p : RiskInput) :
    ((assess_driver_risk p).level = "Low" ∧ (assess_driver_risk p).color = "green" ∨
     (assess_driver_risk p).level = "Medium" ∧ (assess_driver_risk p).color = "yellow" ∨
     (assess_driver_risk p).level = "High" ∧ (assess_driver_risk p).color = "red") ∧
    (assess_driver_risk p).score ≤ 12 ∧
    (assess_driver_risk p).level ≠ ({} : RiskAssessment).level := by
  have hlevel : (assess_driver_risk p).level =
      (riskLevelColor ((assess_driver_risk p).score)).1 := rfl
  have hcolor : (assess_driver_risk p).color =
      (riskLevelColor ((assess_driver_risk p).score)).2 := rfl
  have htri : (assess_driver_risk p).level = "Low" ∧ (assess_driver_risk p).color = "green" ∨
      (assess_driver_risk p).level = "Medium" ∧ (assess_driver_risk p).color = "yellow" ∨
      (assess_driver_risk p).level = "High" ∧ (assess_driver_risk p).color = "red" := by
    by_cases h5 : 5 ≤ (assess_driver_risk p).score
    · exact Or.inr (Or.inr (by rw [hlevel, hcolor, riskLevelColor_high h5]; exact ⟨rfl, rfl⟩))
    · by_cases h2 : 2 ≤ (assess_driver_risk p).score
      · exact Or.inr (Or.inl
          (by rw [hlevel, hcolor, riskLevelColor_medium h2 (by omega)]; exact ⟨rfl, rfl⟩))
      · exact Or.inl (by rw [hlevel, hcolor, riskLevelColor_low (by omega)]; exact ⟨rfl, rfl⟩)
  refine ⟨htri, ?_, ?_⟩
  · show (assess_driver_risk p).score ≤ 12
    have hscore : (assess_driver_risk p).score =
        (if hasSub "felony" (pyLower p.criminal_record_status) ||
            hasSub "conviction" (pyLower p.criminal_record_status) then 3
         else if hasSub "misdemeanor" (pyLower p.criminal_record_status) then 1 else 0) +
        (if hasSub "accident" (pyLower p.accident_history) ||
            hasSub "collision" (pyLower p.accident_history) then 2 else 0) +
        (if hasSub "suspended" (pyLower p.license_suspensions) ||
            hasSub "revoked" (pyLower p.license_suspensions) then 3 else 0) +
        (if hasSub "failed" (pyLower p.drug_test_results) ||
            hasSub "positive" (pyLower p.drug_test_results) then 3 else 0) +
        (if hasSub "violation" (pyLower p.traffic_violations) ||
            hasSub "ticket" (pyLower p.traffic_violations) then 1 else 0) := rfl
    rw [hscore]
    split_ifs <;> omega
  · rcases htri with ⟨h, _⟩ | ⟨h, _⟩ | ⟨h, _⟩ <;> rw [h] <;> decide

theorem exceptBind_ok {α β : Type} (a : α) (f : α → Except Unit β) :
    Except.bind (Except.ok a) f = f a := rfl

theorem binarysortLoop_nil (acc : List EmploymentEntry) : binarysortLoop acc [] = acc := rfl

theorem binarysortLoop_cons_err {pivot : EmploymentEntry} {rest : List EmploymentEntry}
    {acc0 : List EmploymentEntry} {e : Unit}
    (h : binSearchAux pivot acc0 acc0.length 0 acc0.length = .error e) :
    binarysortLoop acc0 (pivot :: rest) = acc0 ++ pivot :: rest := by
  simp only [binarysortLoop, h]

theorem binarysortLoop_cons_ok {pivot : EmploymentEntry} {rest : List EmploymentEntry}
    {acc0 : List EmploymentEntry} {pos : Nat}
    (h : binSearchAux pivot acc0 acc0.length 0 acc0.length = .ok pos) :
    binarysortLoop acc0 (pivot :: rest) =
      binarysortLoop (acc0.take pos ++ pivot :: acc0.drop pos) rest := by
  simp only [binarysortLoop, h]

theorem pyListSortAsc_err {l : List EmploymentEntry} {e : Unit}
    (h : countRun l = .error e) : pyListSortAsc l = l := by
  simp only [pyListSortAsc, h]

theorem pyListSortAsc_ok {l : List EmploymentEntry} {nd : Nat × Bool}
    (h : countRun l = .ok nd) :
    pyListSortAsc l =
      binarysortLoop ((if nd.2 then (l.take nd.1).reverse ++ l.drop nd.1 else l).take nd.1)
        ((if nd.2 then (l.take nd.1).reverse ++ l.drop nd.1 else l).drop nd.1) := by
  simp only [pyListSortAsc, h]

theorem takeDropInsert_perm (acc : List EmploymentEntry) (pivot : EmploymentEntry)
    (pos : Nat) : (acc.take pos ++ pivot :: acc.drop pos).Perm (pivot :: acc) := by
  have h : (acc.take pos ++ pivot :: acc.drop pos).Perm
      (pivot :: (acc.take pos ++ acc.drop pos)) := List.perm_middle
  rw [List.take_append_drop] at h
  exact h

theorem binarysortLoop_perm :
    ∀ (rest acc : List EmploymentEntry), (binarysortLoop acc rest).Perm (acc ++ rest) := by
  intro rest
  induction rest with
  | nil =>
    intro acc
    rw [binarysortLoop_nil, List.append_nil]
  | cons pivot rest ih =>
    intro acc
    cases h : binSearchAux pivot acc acc.length 0 acc.length with
    | error e =>
      rw [binarysortLoop_cons_err h]
    | ok pos =>
      rw [binarysortLoop_cons_ok h]
      have h1 := ih (acc.take pos ++ pivot :: acc.drop pos)
      have h2 : ((acc.take pos ++ pivot :: acc.drop pos) ++ rest).Perm ((pivot :: acc) ++ rest) :=
        (takeDropInsert_perm acc pivot pos).append_right rest
      have h3 : (acc ++ pivot :: rest).Perm (pivot :: (acc ++ rest)) := List.perm_middle
      exact (h1.trans h2).trans h3.symm

theorem l2_perm (l : List EmploymentEntry) (n : Nat) (d : Bool) :
    (if d then (l.take n).reverse ++ l.drop n else l).Perm l := by
  split_ifs with hd
  · have h1 : ((l.take n).reverse ++ l.drop n).Perm (l.take n ++ l.drop n) :=
      (List.reverse_perm _).append_right _
    rw [List.take_append_drop] at h1
    exact h1
  · exact List.Perm.refl _

theorem pyListSortAsc_perm (l : List EmploymentEntry) : (pyListSortAsc l).Perm l := by
  cases h : countRun l with
  | error e =>
    rw [pyListSortAsc_err h]
  | ok nd =>
    rw [pyListSortAsc_ok h]
    set l2 := if nd.2 then (l.take nd.1).reverse ++ l.drop nd.1 else l with hl2
    have h1 := binarysortLoop_perm (l2.drop nd.1) (l2.take nd.1)
    rw [List.take_append_drop] at h1
    exact h1.trans (l2_perm l nd.1 nd.2)

theorem sort_employment_history_perm (l : List EmploymentEntry) :
    (sort_employment_history l).Perm l := by
  unfold sort_employment_history
  exact (List.reverse_perm _).trans ((pyListSortAsc_perm l.reverse).trans (List.reverse_perm l))

theorem cmpLt_eq_of_isSome {a b : EmploymentEntry} (ha : a.start_date.isSome)
    (hb : b.start_date.isSome) :
    cmpLt a b = .ok (decide (empKey a < empKey b)) := by
  obtain ⟨x, hx⟩ := Option.isSome_iff_exists.mp ha
  obtain ⟨y, hy⟩ := Option.isSome_iff_exists.mp hb
  have hka : empKey a = x := by simp [empKey, hx]
  have hkb : empKey b = y := by simp [empKey, hy]
  have h1 : cmpLt a b = .ok (decide (x.toList < y.toList)) := by
    unfold cmpLt
    rw [hx, hy]
  have h2 : decide (x.toList < y.toList) = decide (empKey a < empKey b) := by
    rw [decide_eq_decide, hka, hkb]
    exact String.lt_iff_toList_lt.symm
  rw [h1, h2]

theorem countRunExtend_ok (desc : Bool) :
    ∀ (rest : List EmploymentEntry) (prev : EmploymentEntry),
      prev.start_date.isSome → (∀ r ∈ rest, r.start_date.isSome) →
      ∃ n, countRunExtend desc prev rest = .ok n ∧ n ≤ rest.length ∧
        (prev :: rest.take n).Chain' (fun a b => decide (empKey b < empKey a) = desc) := by
  intro rest
  induction rest with
  | nil =>
    intro prev _ _
    exact ⟨0, rfl, Nat.le_refl _, List.chain'_singleton _⟩
  | cons x xs ih =>
    intro prev hp hall
    have hx : x.start_date.isSome := hall x (List.mem_cons_self _ _)
    have hstep : countRunExtend desc prev (x :: xs) =
        (if decide (empKey x < empKey prev) = desc then
          Except.map (· + 1) (countRunExtend desc x xs) else .ok 0) := by
      simp only [countRunExtend]
      rw [cmpLt_eq_of_isSome hx hp, exceptBind_ok]
    by_cases hc : decide (empKey x < empKey prev) = desc
    · obtain ⟨n, he, hlen, hch⟩ := ih x hx (fun r hr => hall r (List.mem_cons_of_mem _ hr))
      refine ⟨n + 1, ?_, ?_, ?_⟩
      · rw [hstep, if_pos hc, he]
        rfl
      · simpa using Nat.succ_le_succ hlen
      · rw [List.take_succ_cons]
        exact List.chain'_cons.mpr ⟨hc, hch⟩
    · refine ⟨0, ?_, Nat.zero_le _, ?_⟩
      · rw [hstep, if_neg hc]
      · rw [List.take_zero]
        exact List.chain'_singleton _

theorem countRun_ok :
    ∀ (l : List EmploymentEntry), (∀ r ∈ l, r.start_date.isSome) →
      ∃ nd : Nat × Bool, countRun l = .ok nd ∧ nd.1 ≤ l.length ∧
        (l.take nd.1).Chain' (fun a b => decide (empKey b < empKey a) = nd.2)
  | [], _ => ⟨(0, false), rfl, Nat.le_refl _, by simp⟩
  | [_], _ => ⟨(1, false), rfl, by simp, by simp⟩
  | a :: b :: rest, hall => by
    have ha : a.start_date.isSome := hall a (by simp)
    have hb : b.start_date.isSome := hall b (by simp)
    obtain ⟨n, he, hlen, hch⟩ :=
      countRunExtend_ok (decide (empKey b < empKey a)) rest b hb
        (fun r hr => hall r (by simp [hr]))
    refine ⟨(n + 2, decide (empKey b < empKey a)), ?_, ?_, ?_⟩
    · simp only [countRun, cmpLt_eq_of_isSome hb ha, exceptBind_ok, he, Except.map]
    · simp
      omega
    · rw [show n + 2 = n + 1 + 1 from rfl, List.take_succ_cons, List.take_succ_cons]
      exact List.chain'_cons.mpr ⟨rfl, hch⟩

theorem binSearchAux_ok (pivot : EmploymentEntry) (acc : List EmploymentEntry)
    (hs : acc.Pairwise (fun a b => empKey a ≤ empKey b))
    (hall : ∀ r ∈ acc, r.start_date.isSome) (hp : pivot.start_date.isSome) :
    ∀ (fuel l r : Nat), r ≤ acc.length → l ≤ r → r - l ≤ fuel →
      (∀ i, (hi : i < acc.length) → i < l → empKey acc[i] ≤ empKey pivot) →
      (∀ i, (hi : i < acc.length) → r ≤ i → empKey pivot < empKey acc[i]) →
      ∃ pos, binSearchAux pivot acc fuel l r = .ok pos ∧ pos ≤ acc.length ∧
        (∀ i, (hi : i < acc.length) → i < pos → empKey acc[i] ≤ empKey pivot) ∧
        (∀ i, (hi : i < acc.length) → pos ≤ i → empKey pivot < empKey acc[i]) := by
  intro fuel
  induction fuel with
  | zero =>
    intro l r hr hlr hfuel hleft hright
    have hlr2 : l = r := by omega
    subst hlr2
    exact ⟨l, rfl, hr, hleft, hright⟩
  | succ fuel ih =>
    intro l r hr hlr hfuel hleft hright
    by_cases hlt : l < r
    · have hm1 : l ≤ l + (r - l) / 2 := by omega
      have hm2 : l + (r - l) / 2 < r := by omega
      have hmlen : l + (r - l) / 2 < acc.length := by omega
      have hmem : acc[l + (r - l) / 2] ∈ acc := List.getElem_mem _
      have hstep : binSearchAux pivot acc (fuel + 1) l r =
          (if decide (empKey pivot < empKey acc[l + (r - l) / 2]) = true then
            binSearchAux pivot acc fuel l (l + (r - l) / 2)
          else binSearchAux pivot acc fuel (l + (r - l) / 2 + 1) r) := by
        simp only [binSearchAux]
        rw [if_pos hlt, List.getD_eq_getElem acc pivot hmlen,
          cmpLt_eq_of_isSome hp (hall _ hmem), exceptBind_ok]
      by_cases hc : empKey pivot < empKey acc[l + (r - l) / 2]
      · have hright2 : ∀ i, (hi : i < acc.length) → l + (r - l) / 2 ≤ i →
            empKey pivot < empKey acc[i] := by
          intro i hi hgei
          rcases Nat.eq_or_lt_of_le hgei with hEq | hGt
          · subst hEq
            exact hc
          · exact lt_of_lt_of_le hc
              (List.pairwise_iff_getElem.mp hs (l + (r - l) / 2) i hmlen hi hGt)
        obtain ⟨pos, hpos, hb2, hl2, hr2⟩ :=
          ih l (l + (r - l) / 2) (by omega) (by omega) (by omega) hleft hright2
        refine ⟨pos, ?_, hb2, hl2, hr2⟩
        rw [hstep, if_pos (decide_eq_true hc)]
        exact hpos
      · have hleft2 : ∀ i, (hi : i < acc.length) → i < l + (r - l) / 2 + 1 →
            empKey acc[i] ≤ empKey pivot := by
          intro i hi hlti
          have hle : empKey acc[i] ≤ empKey acc[l + (r - l) / 2] := by
            rcases Nat.lt_or_ge i (l + (r - l) / 2) with hcase | hcase
            · exact List.pairwise_iff_getElem.mp hs i (l + (r - l) / 2) hi hmlen hcase
            · have hieq : i = l + (r - l) / 2 := by omega
              subst hieq
              exact le_refl _
          exact le_trans hle (not_lt.mp hc)
        obtain ⟨pos, hpos, hb2, hl2, hr2⟩ :=
          ih (l + (r - l) / 2 + 1) r hr (by omega) (by omega) hleft2 hright
        refine ⟨pos, ?_, hb2, hl2, hr2⟩
        rw [hstep, if_neg (fun hh => hc (of_decide_eq_true hh))]
        exact hpos
    · have hlr2 : l = r := by omega
      subst hlr2
      refine ⟨l, ?_, hr, hleft, hright⟩
      simp only [binSearchAux]
      rw [if_neg hlt]

theorem insert_pos_sorted {acc : List EmploymentEntry} {pivot : EmploymentEntry} {pos : Nat}
    (hs : acc.Pairwise (fun a b => empKey a ≤ empKey b))
    (hleft : ∀ i, (hi : i < acc.length) → i < pos → empKey acc[i] ≤ empKey pivot)
    (hright : ∀ i, (hi : i < acc.length) → pos ≤ i → empKey pivot < empKey acc[i]) :
    (acc.take pos ++ pivot :: acc.drop pos).Pairwise (fun a b => empKey a ≤ empKey b) := by
  rw [List.pairwise_append]
  refine ⟨hs.sublist (List.take_sublist _ _), ?_, ?_⟩
  · rw [List.pairwise_cons]
    refine ⟨?_, hs.sublist (List.drop_sublist _ _)⟩
    intro b hb
    obtain ⟨j, hj, hbj⟩ := List.mem_iff_getElem.mp hb
    have hjlen : pos + j < acc.length := by
      rw [List.length_drop] at hj
      omega
    have hbeq : (acc.drop pos)[j] = acc[pos + j] := by
      rw [List.getElem_drop]
    rw [← hbj, hbeq]
    exact le_of_lt (hright (pos + j) hjlen (Nat.le_add_right _ _))
  · intro a ha b hb
    obtain ⟨i, hi, hai⟩ := List.mem_iff_getElem.mp ha
    have hiacc : i < acc.length := by
      rw [List.length_take] at hi
      omega
    have hipos : i < pos := by
      rw [List.length_take] at hi
      omega
    have haeq : (acc.take pos)[i] = acc[i] := List.getElem_take ..
    rcases List.mem_cons.mp hb with rfl | hbd
    · rw [← hai, haeq]
      exact hleft i hiacc hipos
    · obtain ⟨j, hj, hbj⟩ := List.mem_iff_getElem.mp hbd
      have hjlen : pos + j < acc.length := by
        rw [List.length_drop] at hj
        omega
      have hbeq : (acc.drop pos)[j] = acc[pos + j] := by
        rw [List.getElem_drop]
      rw [← hai, haeq, ← hbj, hbeq]
      exact List.pairwise_iff_getElem.mp hs i (pos + j) hiacc hjlen (by omega)

theorem binarysortLoop_sorted :
    ∀ (rest acc : List EmploymentEntry),
      acc.Pairwise (fun a b => empKey a ≤ empKey b) →
      (∀ r ∈ acc, r.start_date.isSome) → (∀ r ∈ rest, r.start_date.isSome) →
      (binarysortLoop acc rest).Pairwise (fun a b => empKey a ≤ empKey b) := by
  intro rest
  induction rest with
  | nil =>
    intro acc hs _ _
    rw [binarysortLoop_nil]
    exact hs
  | cons pivot rest ih =>
    intro acc hs hacc hrest
    have hp : pivot.start_date.isSome := hrest pivot (List.mem_cons_self _ _)
    obtain ⟨pos, hpos, hposle, hleft, hright⟩ :=
      binSearchAux_ok pivot acc hs hacc hp acc.length 0 acc.length (Nat.le_refl _)
        (Nat.zero_le _) (by omega) (fun i hi h0 => absurd h0 (Nat.not_lt_zero i))
        (fun i hi hge => absurd hi (by omega))
    rw [binarysortLoop_cons_ok hpos]
    apply ih
    · exact insert_pos_sorted hs hleft hright
    · intro q hq
      rcases List.mem_append.mp hq with h1 | h2
      · exact hacc q (List.mem_of_mem_take h1)
      · rcases List.mem_cons.mp h2 with rfl | h3
        · exact hp
        · exact hacc q (List.mem_of_mem_drop h3)
    · exact fun q hq => hrest q (List.mem_cons_of_mem _ hq)

theorem pyListSortAsc_sorted (l : List EmploymentEntry)
    (hall : ∀ r ∈ l, r.start_date.isSome) :
    (pyListSortAsc l).Pairwise (fun a b => empKey a ≤ empKey b) := by
  obtain ⟨⟨n, d⟩, hcr, hlen, hch⟩ := countRun_ok l hall
  rw [pyListSortAsc_ok hcr]
  dsimp only at hch hlen ⊢
  have hl2all : ∀ q ∈ (if d then (l.take n).reverse ++ l.drop n else l), q.start_date.isSome :=
    fun q hq => hall q ((l2_perm l n d).mem_iff.mp hq)
  apply binarysortLoop_sorted
  · cases d with
    | false =>
      rw [if_neg (by simp)]
      haveI : IsTrans EmploymentEntry (fun a b => empKey a ≤ empKey b) :=
        ⟨fun _ _ _ h1 h2 => le_trans h1 h2⟩
      refine List.chain'_iff_pairwise.mp (hch.imp ?_)
      intro a b hab
      have hnot : ¬ empKey b < empKey a := by
        simpa using hab
      exact not_lt.mp hnot
    | true =>
      rw [if_pos rfl]
      have hrev : (((l.take n).reverse ++ l.drop n).take n) = (l.take n).reverse := by
        apply List.take_left'
        rw [List.length_reverse, List.length_take]
        omega
      rw [hrev, List.pairwise_reverse]
      haveI : IsTrans EmploymentEntry (fun a b => empKey b < empKey a) :=
        ⟨fun _ _ _ h1 h2 => lt_trans h2 h1⟩
      have hlt : (l.take n).Pairwise (fun a b => empKey b < empKey a) := by
        refine List.chain'_iff_pairwise.mp (hch.imp ?_)
        intro a b hab
        exact of_decide_eq_true hab
      exact hlt.imp le_of_lt
  · exact fun q hq => hl2all q (List.mem_of_mem_take hq)
  · exact fun q hq => hl2all q (List.mem_of_mem_drop hq)

theorem sort_employment_history_sorted (l : List EmploymentEntry)
    (hall : ∀ r ∈ l, r.start_date.isSome) :
    (sort_employment_history l).Pairwise (fun a b => empKey b ≤ empKey a) := by
  unfold sort_employment_history
  rw [List.pairwise_reverse]
  exact pyListSortAsc_sorted l.reverse (fun r hr => hall r (List.mem_reverse.mp hr))

/-- C3 (amended): the extractor attempts a stable descending sort by the
start-date key under `try/except TypeError`.  When every start date is
present the result is a permutation of the entries sorted most-recent-first;
when any start date is `None` the raised `TypeError` aborts the whole sort
(a global fallback — no record is skipped or lost, the result is always a
permutation of the detection order), but the aborted in-place sort may leave
the list partially reordered rather than in exactly the original detection
order (see the counterexample theorem). -/
theorem c3_sort_attempt (l : List EmploymentEntry) :
    ((∀ r ∈ l, r.start_date ≠ none) →
      (sort_employment_history l).Perm l ∧
      (sort_employment_history l).Pairwise (fun a b => empKey b ≤ empKey a)) ∧
    (sort_employment_history l).Perm l :=
  ⟨fun h => ⟨sort_employment_history_perm l,
     sort_employment_history_sorted l
       (fun r hr => Option.ne_none_iff_isSome.mp (h r hr))⟩,
   sort_employment_history_perm l⟩

/-- Four detected entries whose start dates are `None`, `"x"`, `"a"`, `"b"`:
the entry without a start date is compared mid-insertion, after `"x"` has
already been moved, so the aborted sort does not restore detection order
(checked against CPython 3.11: the last two entries come back swapped). -/
def c3noneExample : List EmploymentEntry :=
  [{ company_name := some "E0" },
   { company_name := some "E1", start_date := some "x" },
   { company_name := some "E2", start_date := some "a" },
   { company_name := some "E3", start_date := some "b" }]

/-- C3 counterexample: the original claim says a missing start date makes the
sort be "skipped entirely" with the list "in exactly the original detection
order"; on `c3noneExample` the aborted in-place sort returns the entries in
order E0, E1, E3, E2 — not the detection order E0, E1, E2, E3. -/
theorem c3_partial_reorder_counterexample :
    (∃ r ∈ c3noneExample, r.start_date = none) ∧
    sort_employment_history c3noneExample ≠ c3noneExample ∧
    sort_employment_history c3noneExample =
      [{ company_name := some "E0" },
       { company_name := some "E1", start_date := some "x" },
       { company_name := some "E3", start_date := some "b" },
       { company_name := some "E2", start_date := some "a" }] := by
  refine ⟨?_, ?_, ?_⟩ <;> decide

/-- Entries with comparable start dates, detected oldest-first. -/
def c3exB : List EmploymentEntry :=
  [{ company_name := some "Old", start_date := some "2019-05-05" },
   { company_name := some "Mid", start_date := some "2020-07-01" },
   { company_name := some "New", start_date := some "2021-02-02" }]

theorem c3_sort_attempt_witness :
    (sort_employment_history c3exB).Perm c3exB ∧
    (sort_employment_history c3exB).Pairwise (fun a b => empKey b ≤ empKey a) :=
  (c3_sort_attempt c3exB).1 (by decide)

theorem round2_nonneg {x : ℚ} (h : 0 ≤ x) : 0 ≤ round2 x := by
  unfold round2
  apply div_nonneg _ (by norm_num)
  have hz : (0 : ℤ) ≤ round (x * 100) := by
    rw [round_eq]
    apply Int.floor_nonneg.mpr
    have := mul_nonneg h (show (0 : ℚ) ≤ 100 by norm_num)
    linarith
  exact_mod_cast hz

theorem round2_le_100 {x : ℚ} (h : x ≤ 100) : round2 x ≤ 100 := by
  unfold round2
  rw [div_le_iff₀ (show (0 : ℚ) < 100 by norm_num)]
  have hr : round (x * 100) ≤ 10000 := by
    rw [round_eq]
    have h1 : x * 100 + 1 / 2 ≤ (10000 : ℚ) + 1 / 2 := by nlinarith
    calc ⌊x * 100 + 1 / 2⌋ ≤ ⌊(10000 : ℚ) + 1 / 2⌋ := Int.floor_le_floor h1
      _ = 10000 := by
        rw [Int.floor_eq_iff]
        norm_num
  calc ((round (x * 100) : ℤ) : ℚ) ≤ (10000 : ℚ) := by exact_mod_cast hr
    _ = 100 * 100 := by norm_num

/-- C4: the confidence score is `min(100, 100 * adjusted / total)` rounded to
2 decimal places, where `adjusted` is the count of non-absent catalog fields
plus 5 when employment history is non-empty plus 2 per populated field among
full_name/email/license_number (even when already counted); the score lies in
`[0, 100]`, and a zero-field catalog scores exactly 0. -/
theorem c4_confidence_score (mappings : List String) (r : ParseResult) :
    calculate_parsing_confidence mappings r = specConfidence mappings r ∧
    0 ≤ calculate_parsing_confidence mappings r ∧
    calculate_parsing_confidence mappings r ≤ 100 ∧
    (mappings.length = 0 → calculate_parsing_confidence mappings r = 0) := by
  have hcalc : calculate_parsing_confidence mappings r =
      round2 (if mappings.length = 0 then 0
        else min 100 (((countExtracted mappings r +
          (if r.employment_history.length > 0 then 5 else 0) +
          2 * requiredPopulated r : Nat) : ℚ) / (mappings.length : ℚ) * 100)) := rfl
  by_cases h0 : mappings.length = 0
  · have hc : calculate_parsing_confidence mappings r = 0 := by
      rw [hcalc, if_pos h0]
      simp [round2]
    refine ⟨?_, ?_, ?_, fun _ => hc⟩
    · rw [hc, specConfidence, if_pos h0]
    · rw [hc]
    · rw [hc]
      norm_num
  · have hadj : countExtracted mappings r +
        (if r.employment_history.length > 0 then 5 else 0) + 2 * requiredPopulated r =
        specAdjustedCount mappings r := by
      unfold specAdjustedCount
      congr 2
      simp [List.length_pos]
    have hcalc2 : calculate_parsing_confidence mappings r =
        round2 (min 100 ((specAdjustedCount mappings r : ℚ) / (mappings.length : ℚ) * 100)) := by
      rw [hcalc, if_neg h0, hadj]
    have hspec : specConfidence mappings r =
        round2 (min 100 (100 * (specAdjustedCount mappings r : ℚ) / (mappings.length : ℚ))) := by
      unfold specConfidence
      rw [if_neg h0]
    have hargs : (specAdjustedCount mappings r : ℚ) / (mappings.length : ℚ) * 100 =
        100 * (specAdjustedCount mappings r : ℚ) / (mappings.length : ℚ) := by
      ring
    refine ⟨by rw [hcalc2, hspec, hargs], ?_, ?_, fun hz => absurd hz h0⟩
    · rw [hcalc2]
      exact round2_nonneg (le_min (by norm_num) (by positivity))
    · rw [hcalc2]
      exact round2_le_100 (min_le_left _ _)

theorem c4_confidence_score_witness : calculate_parsing_confidence [] ⟨[], []⟩ = 0 :=
  (c4_confidence_score [] ⟨[], []⟩).2.2.2 rfl

/-! ### Lemmas for the `to_json_safe` cleaning invariant -/

/-- A dict value either gets dropped by `clean_dict`, or survives cleaning as
a value that is itself non-droppable with clean dict entries throughout. -/
def entryOK (v : JVal) : Prop :=
  dropVal v = true ∨ (dropVal (cleanJ v) = false ∧ dict_entries_clean (cleanJ v) = true)

theorem dictCleanObj_of (es : List (String × JVal)) (h : ∀ kv ∈ es, entryOK kv.2) :
    dictCleanObj (cleanObj es) = true := by
  induction es with
  | nil => rfl
  | cons kv rest ih =>
    obtain ⟨k, v⟩ := kv
    have hrest := ih (fun kv hkv => h kv (List.mem_cons_of_mem _ hkv))
    by_cases hd : dropVal v = true
    · simp only [cleanObj]
      rw [if_pos hd]
      exact hrest
    · obtain ⟨h1, h2⟩ := (h (k, v) (List.mem_cons_self _ _)).resolve_left hd
      simp only [cleanObj]
      rw [if_neg hd]
      simp only [dictCleanObj]
      rw [h1, h2, hrest]
      rfl

theorem entryOK_jobj (es : List (String × JVal)) (h : ∀ kv ∈ es, entryOK kv.2) :
    entryOK (.jobj es) :=
  Or.inr ⟨rfl, dictCleanObj_of es h⟩

theorem entryOK_optJ (o : Option String) : entryOK (optJ o) := by
  cases o with
  | none => exact Or.inl rfl
  | some s =>
    by_cases hs : s = ""
    · exact Or.inl (by simp [optJ, dropVal, hs])
    · exact Or.inr ⟨by simp [optJ, cleanJ, dropVal, hs], rfl⟩

theorem cleanList_map_jstr (fs : List String) :
    cleanList (fs.map JVal.jstr) = fs.map JVal.jstr := by
  induction fs with
  | nil => rfl
  | cons s rest ih =>
    show JVal.jstr s :: cleanList (rest.map JVal.jstr) = _
    rw [ih, List.map_cons]

theorem dictCleanList_map_jstr (fs : List String) :
    dictCleanList (fs.map JVal.jstr) = true := by
  induction fs with
  | nil => rfl
  | cons s rest ih =>
    show (dict_entries_clean (.jstr s) && dictCleanList (rest.map JVal.jstr)) = true
    rw [ih]
    rfl

theorem entryOK_factors (fs : List String) : entryOK (.jlist (fs.map JVal.jstr)) := by
  cases fs with
  | nil => exact Or.inl rfl
  | cons s rest =>
    have hc : cleanJ (.jlist ((s :: rest).map JVal.jstr)) =
        .jlist ((s :: rest).map JVal.jstr) := by
      show JVal.jlist (cleanList ((s :: rest).map JVal.jstr)) = _
      rw [cleanList_map_jstr]
    refine Or.inr ⟨?_, ?_⟩
    · rw [hc]
      rfl
    · rw [hc]
      show dictCleanList ((s :: rest).map JVal.jstr) = true
      exact dictCleanList_map_jstr _

theorem record_clean (r : EmploymentRecord) :
    dict_entries_clean (cleanJ r.toDict) = true :=
  dictCleanObj_of _ (by
    intro kv hkv
    fin_cases hkv <;> exact entryOK_optJ _)

theorem cleanList_map_record (ps : List EmploymentRecord) :
    cleanList (ps.map EmploymentRecord.toDict) =
      ps.map (fun r => cleanJ r.toDict) := by
  induction ps with
  | nil => rfl
  | cons r rest ih =>
    show cleanJ r.toDict :: cleanList (rest.map EmploymentRecord.toDict) = _
    rw [ih, List.map_cons]

theorem dictCleanList_map_record (ps : List EmploymentRecord) :
    dictCleanList (ps.map (fun r => cleanJ r.toDict)) = true := by
  induction ps with
  | nil => rfl
  | cons r rest ih =>
    show (dict_entries_clean (cleanJ r.toDict) &&
      dictCleanList (rest.map (fun r => cleanJ r.toDict))) = true
    rw [record_clean, ih]
    rfl

theorem entryOK_positions (ps : List EmploymentRecord) :
    entryOK (.jlist (ps.map EmploymentRecord.toDict)) := by
  cases ps with
  | nil => exact Or.inl rfl
  | cons r rest =>
    have hc : cleanJ (.jlist ((r :: rest).map EmploymentRecord.toDict)) =
        .jlist ((r :: rest).map (fun x => cleanJ x.toDict)) := by
      show JVal.jlist (cleanList ((r :: rest).map EmploymentRecord.toDict)) = _
      rw [cleanList_map_record]
    refine Or.inr ⟨?_, ?_⟩
    · rw [hc]
      rfl
    · rw [hc]
      show dictCleanList ((r :: rest).map (fun x => cleanJ x.toDict)) = true
      exact dictCleanList_map_record _

theorem personal_entryOK (x : PersonalInfo) : entryOK x.toDict :=
  entryOK_jobj _ (by intro kv hkv; fin_cases hkv <;> exact entryOK_optJ _)

theorem license_entryOK (x : LicenseInfo) : entryOK x.toDict :=
  entryOK_jobj _ (by intro kv hkv; fin_cases hkv <;> exact entryOK_optJ _)

theorem safety_entryOK (x : SafetyRecord) : entryOK x.toDict :=
  entryOK_jobj _ (by intro kv hkv; fin_cases hkv <;> exact entryOK_optJ _)

theorem education_entryOK (x : Education) : entryOK x.toDict :=
  entryOK_jobj _ (by intro kv hkv; fin_cases hkv <;> exact entryOK_optJ _)

theorem compliance_entryOK (x : ComplianceInfo) : entryOK x.toDict :=
  entryOK_jobj _ (by intro kv hkv; fin_cases hkv <;> exact entryOK_optJ _)

theorem employment_entryOK (x : EmploymentHistory) : entryOK x.toDict :=
  entryOK_jobj _ (by
    intro kv hkv
    fin_cases hkv
    · exact entryOK_optJ _
    · exact entryOK_optJ _
    · exact entryOK_positions _)

theorem risk_entryOK (x : RiskAssessment) : entryOK x.toDict :=
  entryOK_jobj _ (by
    intro kv hkv
    fin_cases hkv
    · exact entryOK_optJ (some x.level)
    · exact Or.inr ⟨rfl, rfl⟩
    · exact entryOK_optJ (some x.color)
    · exact entryOK_factors _
    · exact entryOK_optJ (some x.recommendation))

theorem metadata_entryOK (x : ApplicationMetadata) : entryOK x.toDict :=
  entryOK_jobj _ (by
    intro kv hkv
    fin_cases hkv
    · exact entryOK_optJ _
    · exact Or.inr ⟨rfl, rfl⟩
    · exact Or.inr ⟨rfl, rfl⟩
    · exact entryOK_optJ _
    · exact entryOK_optJ (some x.api_version)
    · exact entryOK_optJ _)

/-- C8 (amended): `to_json_safe` recursively drops droppable dict-entry
values (null, empty string, empty list — checked on the pre-cleaning value)
and drops null list elements, so no dict entry of the result holds a
droppable value; a profile with all optional fields absent serializes to just
the identifiers and the structural defaults (section dicts cleaned to `{}`,
the default risk level/score/color, the metadata defaults, status and
timestamps).  Empty strings occurring as list *elements* are retained — see
the counterexample theorem. -/
theorem c8_to_json_safe_amended :
    (∀ p : DriverProfile, dict_entries_clean p.to_json_safe = true) ∧
    DriverProfile.to_json_safe
        (newDriverProfile "123e4567-e89b-12d3-a456-426614174000" "2025-01-01T00:00:00") =
      .jobj [("driver_id", .jstr "123e4567-e89b-12d3-a456-426614174000"),
        ("profile_id", .jstr "DRV-123E4567"),
        ("personal", .jobj []), ("license", .jobj []), ("employment", .jobj []),
        ("safety", .jobj []), ("education", .jobj []), ("compliance", .jobj []),
        ("risk_assessment", .jobj [("level", .jstr "Unknown"), ("score", .jint 0),
          ("color", .jstr "gray")]),
        ("metadata", .jobj [("confidence_score", .jnum 0),
          ("total_fields_extracted", .jint 0), ("api_version", .jstr "2.0")]),
        ("status", .jstr "pending"),
        ("created_at", .jstr "2025-01-01T00:00:00"),
        ("updated_at", .jstr "2025-01-01T00:00:00")] := by
  constructor
  · intro p
    exact dictCleanObj_of _ (by
      intro kv hkv
      fin_cases hkv
      · exact entryOK_optJ (some p.driver_id)
      · exact entryOK_optJ (some p.profile_id)
      · exact personal_entryOK _
      · exact license_entryOK _
      · exact employment_entryOK _
      · exact safety_entryOK _
      · exact education_entryOK _
      · exact compliance_entryOK _
      · exact risk_entryOK _
      · exact metadata_entryOK _
      · exact entryOK_optJ (some p.status)
      · exact entryOK_optJ p.created_at
      · exact entryOK_optJ p.updated_at)
  · rfl

/-- A profile whose risk factors list contains an empty string. -/
def c8blankFactorProfile : DriverProfile :=
  { newDriverProfile "00000000-0000-0000-0000-000000000000" "2025-01-01T00:00:00" with
    risk_assessment :=
      { level := "Low", score := 1, color := "green", factors := [""],
        recommendation := "ok" } }

/-- C8 counterexample: the claim says `to_json_safe` drops *every*
null/empty-string/empty-sequence value from the nested structure, but an
empty string sitting inside a list (here `risk_assessment.factors`) survives
cleaning, so the result still contains a droppable value. -/
theorem c8_blank_in_list_counterexample :
    has_dropped_value (DriverProfile.to_json_safe c8blankFactorProfile) = true := rfl

end Driveline
